import Mathlib

/-!
Verification development for the `rust-syslog-rfc5424` parser.

The Rust sources in `src/parser.rs`, `src/severity.rs`, `src/facility.rs`,
`src/structured_data.rs` and `src/message.rs` are embedded shallowly:

* the parse state (`&str` slices named `rest`) becomes a `List Char`,
  threaded explicitly through pure functions;
* byte indices produced by `char_indices` / `as_bytes` are modelled with
  `charBytes` (the UTF-8 size of a character), so the embedding is
  byte-faithful on non-ASCII input too;
* fallible Rust code returning `Result<T, ParseErr>` becomes
  `PResult T`, which has a third outcome `panicked` modelling a Rust
  panic (out-of-bounds byte slicing);
* machine integers (`i32`) are modelled as `Int`; the only place i32
  overflow matters is `i32::from_str`, whose range checks are modelled
  explicitly in `i32_from_str`.
-/

namespace Syslog

/-- Error type, mirroring `enum ParseErr` in `src/parser.rs` (payloads that
carry only diagnostic detail irrelevant to control flow are dropped). -/
inductive ParseErr where
  | RegexDoesNotMatchErr
  | BadSeverityInPri
  | BadFacilityInPri
  | UnexpectedEndOfInput
  | TooFewDigits
  | TooManyDigits
  | InvalidUTCOffset
  | BaseUnicodeError
  | UnicodeError
  | ExpectedTokenErr (c : Char)
  | IntConversionErr
  | MissingField (fieldName : List Char)
  deriving DecidableEq, Repr

/-- Outcome of running a piece of the Rust parser: a returned `Ok`, a
returned `Err`, or a process panic (which `Result` does not capture). -/
inductive PResult (α : Type) where
  | panicked
  | err (e : ParseErr)
  | ok (a : α)
  deriving DecidableEq, Repr

/-- Sequencing of fallible steps; both `Err` and a panic short-circuit. -/
def PResult.bind {α β : Type} : PResult α → (α → PResult β) → PResult β
  | .panicked, _ => .panicked
  | .err e, _ => .err e
  | .ok a, f => f a

/-- Number of bytes in the UTF-8 encoding of a character.  Used to model
the byte indices that Rust's `char_indices` and `as_bytes` expose. -/
def charBytes (c : Char) : Nat :=
  if c.toNat < 128 then 1
  else if c.toNat < 2048 then 2
  else if c.toNat < 65536 then 3
  else 4

/-- Byte length of a string, modelling Rust's `str::len`. -/
def byteLen (s : List Char) : Nat := (s.map charBytes).sum

/-- Loop body of `take_while` (`src/parser.rs:89-102`): `idx` is the byte
index of the current character, `acc` the (reversed) consumed prefix.
The source checks `!f(chr)` first, then `idx == max_chars`, and returns
`("", None)` if the whole input satisfies `f` without hitting the cap. -/
def take_while_go (f : Char → Bool) (max_chars : Nat) :
    List Char → Nat → List Char → List Char × Option (List Char)
  | [], _, _ => ([], none)
  | c :: cs, idx, acc =>
    if f c = false then (acc.reverse, some (c :: cs))
    else if idx = max_chars then (acc.reverse, some (c :: cs))
    else take_while_go f max_chars cs (idx + charBytes c) (c :: acc)

/-- `take_while` from `src/parser.rs:89-102`. -/
def take_while (input : List Char) (f : Char → Bool) (max_chars : Nat) :
    List Char × Option (List Char) :=
  take_while_go f max_chars input 0 []

/-- The `take_char!` macro of `src/parser.rs:75-87`. -/
def take_char (s : List Char) (c : Char) : PResult (List Char) :=
  match s with
  | [] => .err ParseErr.UnexpectedEndOfInput
  | x :: xs => if x = c then .ok xs else .err (ParseErr.ExpectedTokenErr c)

/-- The `maybe_expect_char!` macro of `src/parser.rs:56-63`. -/
def maybe_expect_char (s : List Char) (c : Char) : Option (List Char) :=
  match s with
  | [] => none
  | x :: xs => if x = c then some xs else none

/-- Character class scanned by `parse_sd_id` (`src/parser.rs:105`). -/
def sd_id_char (c : Char) : Bool := c ≠ ' ' && c ≠ '=' && c ≠ ']'

/-- `parse_sd_id` from `src/parser.rs:104-113`. -/
def parse_sd_id (input : List Char) : PResult (List Char × List Char) :=
  match take_while input sd_id_char 128 with
  | (_, none) => .err ParseErr.UnexpectedEndOfInput
  | (res, some rest) => .ok (res, rest)

/-- The double-quote character (written numerically for robustness). -/
def quoteChar : Char := Char.ofNat 34

/-- The backslash character. -/
def backslashChar : Char := Char.ofNat 92

/-- Loop of `parse_param_value` (`src/parser.rs:126-150`).  The source
keeps both a borrowed and an owned buffer purely as an allocation
optimisation; the produced text is in both cases exactly the characters
before the closing quote with escaping backslashes removed, which is what
`acc` accumulates here.  `escaped` mirrors the `escaped` flag. -/
def pv_loop : List Char → Bool → List Char → PResult (List Char × List Char)
  | [], _, _ => .err ParseErr.UnexpectedEndOfInput
  | c :: cs, escaped, acc =>
    if escaped then pv_loop cs false (c :: acc)
    else if c = backslashChar then pv_loop cs true acc
    else if c = quoteChar then .ok (acc.reverse, cs)
    else pv_loop cs false (c :: acc)

/-- `parse_param_value` from `src/parser.rs:116-153`. -/
def parse_param_value (input : List Char) : PResult (List Char × List Char) :=
  (take_char input quoteChar).bind fun rest => pv_loop rest false []

theorem take_while_go_rest_le (f : Char → Bool) (m : Nat) :
    ∀ (inp : List Char) (idx : Nat) (acc : List Char) (r : List Char),
      (take_while_go f m inp idx acc).2 = some r → r.length ≤ inp.length := by
  intro inp
  induction inp with
  | nil => intro idx acc r h; simp [take_while_go] at h
  | cons c cs ih =>
    intro idx acc r h
    by_cases hf : f c = false
    · simp [take_while_go, hf] at h
      simp [← h]
    · by_cases hm : idx = m
      · simp [take_while_go, hf, hm] at h
        simp [← h]
      · simp [take_while_go, hf, hm] at h
        have := ih (idx + charBytes c) (c :: acc) r h
        exact Nat.le_succ_of_le this

theorem parse_sd_id_rest_le (inp t r : List Char)
    (h : parse_sd_id inp = .ok (t, r)) : r.length ≤ inp.length := by
  unfold parse_sd_id at h
  rcases hw : take_while inp sd_id_char 128 with ⟨res, rest⟩
  rw [hw] at h
  cases rest with
  | none => simp at h
  | some rr =>
    simp at h
    have hle : rr.length ≤ inp.length := take_while_go_rest_le _ _ inp 0 [] rr (by simpa [take_while] using congrArg Prod.snd hw)
    rcases h with ⟨h1, h2⟩
    subst h2
    exact hle

theorem take_char_rest_lt (s : List Char) (c : Char) (r : List Char)
    (h : take_char s c = .ok r) : r.length < s.length := by
  cases s with
  | nil => simp [take_char] at h
  | cons x xs =>
    by_cases hx : x = c
    · simp [take_char, hx] at h
      simp [← h]
    · simp [take_char, hx] at h

theorem pv_loop_rest_lt :
    ∀ (l : List Char) (e : Bool) (acc v r : List Char),
      pv_loop l e acc = .ok (v, r) → r.length < l.length := by
  intro l
  induction l with
  | nil => intro e acc v r h; simp [pv_loop] at h
  | cons c cs ih =>
    intro e acc v r h
    cases e with
    | true =>
      simp only [pv_loop, if_pos rfl] at h
      have := ih false (c :: acc) v r (by simpa using h)
      exact Nat.lt_succ_of_lt this
    | false =>
      by_cases hb : c = backslashChar
      · simp [pv_loop, hb] at h
        have := ih true acc v r h
        exact Nat.lt_succ_of_lt this
      · by_cases hq : c = quoteChar
        · simp [pv_loop, hb, hq, show quoteChar ≠ backslashChar from by decide] at h
          have : r = cs := h.2.symm
          simp [this, Nat.lt_succ_self]
        · simp [pv_loop, hb, hq] at h
          have := ih false (c :: acc) v r h
          exact Nat.lt_succ_of_lt this

theorem parse_param_value_rest_lt (inp v r : List Char)
    (h : parse_param_value inp = .ok (v, r)) : r.length < inp.length := by
  unfold parse_param_value at h
  cases hc : take_char inp quoteChar with
  | panicked => rw [hc] at h; simp [PResult.bind] at h
  | err e => rw [hc] at h; simp [PResult.bind] at h
  | ok rest =>
    rw [hc] at h
    simp only [PResult.bind] at h
    have h1 := take_char_rest_lt inp quoteChar rest hc
    have h2 := pv_loop_rest_lt rest false [] v r h
    omega

theorem maybe_expect_char_some (s : List Char) (c : Char) (r : List Char)
    (h : maybe_expect_char s c = some r) : s = c :: r := by
  cases s with
  | nil => simp [maybe_expect_char] at h
  | cons x xs =>
    by_cases hx : x = c
    · simp [maybe_expect_char, hx] at h
      simp [hx, h]
    · simp [maybe_expect_char, hx] at h

/-- Loop of `parse_sd_params` (`src/parser.rs:157-173`); `params` is the
accumulator `params` of the source, pushed in order. -/
def parse_sd_params_go (params : List (List Char × List Char)) (top : List Char) :
    PResult (List (List Char × List Char) × List Char) :=
  match h0 : maybe_expect_char top ' ' with
  | none => .ok (params, top)
  | some rest2 =>
    match h1 : parse_sd_id rest2 with
    | .panicked => .panicked
    | .err e => .err e
    | .ok (param_name, r1) =>
      match h2 : take_char r1 '=' with
      | .panicked => .panicked
      | .err e => .err e
      | .ok r2 =>
        match h3 : parse_param_value r2 with
        | .panicked => .panicked
        | .err e => .err e
        | .ok (param_value, r3) =>
          parse_sd_params_go (params ++ [(param_name, param_value)]) r3
termination_by top.length
decreasing_by
  have e0 := maybe_expect_char_some top ' ' rest2 h0
  have e1 := parse_sd_id_rest_le rest2 param_name r1 h1
  have e2 := take_char_rest_lt r1 '=' r2 h2
  have e3 := parse_param_value_rest_lt r2 param_value r3 h3
  have : top.length = rest2.length + 1 := by rw [e0]; simp
  omega

/-- `parse_sd_params` from `src/parser.rs:157-173`. -/
def parse_sd_params (input : List Char) :
    PResult (List (List Char × List Char) × List Char) :=
  parse_sd_params_go [] input

/-- `parse_sde` from `src/parser.rs:175-182`. -/
def parse_sde (sde : List Char) :
    PResult ((List Char × List (List Char × List Char)) × List Char) :=
  (take_char sde '[').bind fun r0 =>
  (parse_sd_id r0).bind fun (id, r1) =>
  (parse_sd_params r1).bind fun (params, r2) =>
  (take_char r2 ']').bind fun r3 =>
  .ok ((id, params), r3)

theorem parse_sd_params_go_rest_le :
    ∀ (n : Nat) (top : List Char) (acc ps : List (List Char × List Char)) (r : List Char),
      top.length ≤ n → parse_sd_params_go acc top = .ok (ps, r) →
      r.length ≤ top.length := by
  intro n
  induction n with
  | zero =>
    intro top acc ps r hn h
    rw [parse_sd_params_go] at h
    split at h
    · simp at h
      rw [h.2]
    · rename_i rest2 hme
      have := maybe_expect_char_some top ' ' rest2 hme
      rw [this] at hn
      simp at hn
  | succ n ih =>
    intro top acc ps r hn h
    rw [parse_sd_params_go] at h
    split at h
    · simp at h
      rw [h.2]
    · rename_i rest2 hme
      have etop := maybe_expect_char_some top ' ' rest2 hme
      split at h
      · simp at h
      · simp at h
      · rename_i param_name r1 h1
        split at h
        · simp at h
        · simp at h
        · rename_i r2 h2
          split at h
          · simp at h
          · simp at h
          · rename_i param_value r3 h3
            have e1 := parse_sd_id_rest_le rest2 param_name r1 h1
            have e2 := take_char_rest_lt r1 '=' r2 h2
            have e3 := parse_param_value_rest_lt r2 param_value r3 h3
            have hlen : top.length = rest2.length + 1 := by rw [etop]; simp
            have hr3 : r3.length ≤ n := by omega
            have := ih r3 (acc ++ [(param_name, param_value)]) ps r hr3 h
            omega

theorem parse_sde_rest_lt (sde : List Char)
    (idp : List Char × List (List Char × List Char)) (r : List Char)
    (h : parse_sde sde = .ok (idp, r)) : r.length < sde.length := by
  unfold parse_sde at h
  cases h0 : take_char sde '[' with
  | panicked => rw [h0] at h; simp [PResult.bind] at h
  | err e => rw [h0] at h; simp [PResult.bind] at h
  | ok r0 =>
    rw [h0] at h
    simp only [PResult.bind] at h
    cases h1 : parse_sd_id r0 with
    | panicked => rw [h1] at h; simp at h
    | err e => rw [h1] at h; simp at h
    | ok p1 =>
      rcases p1 with ⟨id, r1⟩
      rw [h1] at h
      simp only at h
      cases h2 : parse_sd_params r1 with
      | panicked => rw [h2] at h; simp at h
      | err e => rw [h2] at h; simp at h
      | ok p2 =>
        rcases p2 with ⟨params, r2⟩
        rw [h2] at h
        simp only at h
        cases h3 : take_char r2 ']' with
        | panicked => rw [h3] at h; simp at h
        | err e => rw [h3] at h; simp at h
        | ok r3 =>
          rw [h3] at h
          simp only at h
          have e0 := take_char_rest_lt sde '[' r0 h0
          have e1 := parse_sd_id_rest_le r0 id r1 h1
          have e2 := parse_sd_params_go_rest_le r1.length r1 [] params r2 le_rfl h2
          have e3 := take_char_rest_lt r2 ']' r3 h3
          cases h
          omega

/-- Structured data: parameter maps and the container, modelling the
default `BTreeStructuredData` backing
(`BTreeMap<String, BTreeMap<String, String>>`, `src/structured_data.rs:41`)
as association lists.  `BTreeMap::insert` overwrites the value stored at
an existing key, which is what `amSet` does. -/
abbrev SDParams := List (List Char × List Char)

abbrev SD := List (List Char × SDParams)

/-- Map update with overwrite, modelling `BTreeMap::insert`. -/
def amSet (k v : List Char) : SDParams → SDParams
  | [] => [(k, v)]
  | (k1, v1) :: rest => if k1 = k then (k, v) :: rest else (k1, v1) :: amSet k v rest

/-- `insert_tuple` from `src/structured_data.rs:54-62`: fetch-or-create the
sub-map for `sd_id`, then insert (overwriting) the parameter. -/
def insert_tuple (sd : SD) (sd_id k v : List Char) : SD :=
  match sd with
  | [] => [(sd_id, amSet k v [])]
  | (id1, m) :: rest =>
    if id1 = sd_id then (id1, amSet k v m) :: rest
    else (id1, m) :: insert_tuple rest sd_id k v

/-- The `for (sd_param_id, sd_param_value) in params` loop of `parse_sd`
(`src/parser.rs:192-194`). -/
def sd_insert_params (sd : SD) (sd_id : List Char) : SDParams → SD
  | [] => sd
  | (k, v) :: rest => sd_insert_params (insert_tuple sd sd_id k v) sd_id rest

/-- The `while !rest.is_empty()` loop of `parse_sd` (`src/parser.rs:190-198`). -/
def parse_sd_go (sd : SD) (rest : List Char) : PResult (SD × List Char) :=
  match rest with
  | [] => .ok (sd, [])
  | c :: cs =>
    match h : parse_sde (c :: cs) with
    | .panicked => .panicked
    | .err e => .err e
    | .ok ((sd_id, params), rest1) =>
      let sd1 := sd_insert_params sd sd_id params
      if rest1.head? = some ' ' then .ok (sd1, rest1)
      else parse_sd_go sd1 rest1
termination_by rest.length
decreasing_by
  exact parse_sde_rest_lt _ _ _ h

/-- `parse_sd` from `src/parser.rs:184-200`: a leading `-` is consumed as
the null sentinel unconditionally. -/
def parse_sd (structured_data_raw : List Char) : PResult (SD × List Char) :=
  match structured_data_raw with
  | '-' :: rest => .ok ([], rest)
  | s => parse_sd_go [] s

/-- Severities, mirroring `enum SyslogSeverity` in `src/severity.rs`. -/
inductive SyslogSeverity where
  | SEV_EMERG
  | SEV_ALERT
  | SEV_CRIT
  | SEV_ERR
  | SEV_WARNING
  | SEV_NOTICE
  | SEV_INFO
  | SEV_DEBUG
  deriving DecidableEq, Repr

/-- `SyslogSeverity::from_int` (via `TryFrom<i32>`, `src/severity.rs:28-54`). -/
def SyslogSeverity.from_int (i : Int) : Option SyslogSeverity :=
  match i with
  | 0 => some .SEV_EMERG
  | 1 => some .SEV_ALERT
  | 2 => some .SEV_CRIT
  | 3 => some .SEV_ERR
  | 4 => some .SEV_WARNING
  | 5 => some .SEV_NOTICE
  | 6 => some .SEV_INFO
  | 7 => some .SEV_DEBUG
  | _ => none

/-- Wire discriminant of a severity (the explicit values in the enum). -/
def SyslogSeverity.as_int : SyslogSeverity → Int
  | .SEV_EMERG => 0
  | .SEV_ALERT => 1
  | .SEV_CRIT => 2
  | .SEV_ERR => 3
  | .SEV_WARNING => 4
  | .SEV_NOTICE => 5
  | .SEV_INFO => 6
  | .SEV_DEBUG => 7

/-- Facilities, mirroring `enum SyslogFacility` in `src/facility.rs`. -/
inductive SyslogFacility where
  | LOG_KERN
  | LOG_USER
  | LOG_MAIL
  | LOG_DAEMON
  | LOG_AUTH
  | LOG_SYSLOG
  | LOG_LPR
  | LOG_NEWS
  | LOG_UUCP
  | LOG_CRON
  | LOG_AUTHPRIV
  | LOG_FTP
  | LOG_NTP
  | LOG_AUDIT
  | LOG_ALERT
  | LOG_CLOCKD
  | LOG_LOCAL0
  | LOG_LOCAL1
  | LOG_LOCAL2
  | LOG_LOCAL3
  | LOG_LOCAL4
  | LOG_LOCAL5
  | LOG_LOCAL6
  | LOG_LOCAL7
  deriving DecidableEq, Repr

/-- `SyslogFacility::from_int` (via `TryFrom<i32>`, `src/facility.rs:45-84`). -/
def SyslogFacility.from_int (i : Int) : Option SyslogFacility :=
  match i with
  | 0 => some .LOG_KERN
  | 1 => some .LOG_USER
  | 2 => some .LOG_MAIL
  | 3 => some .LOG_DAEMON
  | 4 => some .LOG_AUTH
  | 5 => some .LOG_SYSLOG
  | 6 => some .LOG_LPR
  | 7 => some .LOG_NEWS
  | 8 => some .LOG_UUCP
  | 9 => some .LOG_CRON
  | 10 => some .LOG_AUTHPRIV
  | 11 => some .LOG_FTP
  | 12 => some .LOG_NTP
  | 13 => some .LOG_AUDIT
  | 14 => some .LOG_ALERT
  | 15 => some .LOG_CLOCKD
  | 16 => some .LOG_LOCAL0
  | 17 => some .LOG_LOCAL1
  | 18 => some .LOG_LOCAL2
  | 19 => some .LOG_LOCAL3
  | 20 => some .LOG_LOCAL4
  | 21 => some .LOG_LOCAL5
  | 22 => some .LOG_LOCAL6
  | 23 => some .LOG_LOCAL7
  | _ => none

/-- Wire discriminant of a facility (the explicit values in the enum). -/
def SyslogFacility.as_int : SyslogFacility → Int
  | .LOG_KERN => 0
  | .LOG_USER => 1
  | .LOG_MAIL => 2
  | .LOG_DAEMON => 3
  | .LOG_AUTH => 4
  | .LOG_SYSLOG => 5
  | .LOG_LPR => 6
  | .LOG_NEWS => 7
  | .LOG_UUCP => 8
  | .LOG_CRON => 9
  | .LOG_AUTHPRIV => 10
  | .LOG_FTP => 11
  | .LOG_NTP => 12
  | .LOG_AUDIT => 13
  | .LOG_ALERT => 14
  | .LOG_CLOCKD => 15
  | .LOG_LOCAL0 => 16
  | .LOG_LOCAL1 => 17
  | .LOG_LOCAL2 => 18
  | .LOG_LOCAL3 => 19
  | .LOG_LOCAL4 => 20
  | .LOG_LOCAL5 => 21
  | .LOG_LOCAL6 => 22
  | .LOG_LOCAL7 => 23

/-- `parse_pri_val` from `src/parser.rs:202-206`.  The source computes
`pri & 0x7` and `pri >> 3` on an `i32`; every `pri` reaching this function
comes from `parse_num` and is therefore non-negative, where the bit
operations coincide with `% 8` and `/ 8`. -/
def parse_pri_val (pri : Int) : PResult (SyslogSeverity × SyslogFacility) :=
  match SyslogSeverity.from_int (pri % 8) with
  | none => .err ParseErr.BadSeverityInPri
  | some sev =>
    match SyslogFacility.from_int (pri / 8) with
    | none => .err ParseErr.BadFacilityInPri
    | some fac => .ok (sev, fac)

/-- ASCII digit test, as written in `parse_num` (`c >= '0' && c <= '9'`;
Rust compares characters by code point, hence the `toNat` form). -/
def is_digit_char (c : Char) : Bool := 48 ≤ c.toNat && c.toNat ≤ 57

/-- Numeric value of an ASCII digit. -/
def digit_val (c : Char) : Nat := c.toNat - 48

/-- Accumulating decimal evaluation of a digit string. -/
def digits_to_nat_go (acc : Nat) : List Char → Option Nat
  | [] => some acc
  | c :: cs =>
    if is_digit_char c then digits_to_nat_go (acc * 10 + digit_val c) cs else none

/-- Modelled from the Rust standard library (not part of this repository):
`<i32 as FromStr>::from_str`, used at `src/parser.rs:217,272-273,325`.
It accepts an optional `+`/`-` sign followed by one or more ASCII digits
(leading zeros allowed) and fails on anything else or on i32 overflow.
The library checks overflow at every accumulation step; since the
accumulated magnitude is monotone in the number of digits consumed, this
is equivalent to the single final range check done here. -/
def i32_from_str_digits (ds : List Char) (neg : Bool) : Option Int :=
  match ds with
  | [] => none
  | _ =>
    match digits_to_nat_go 0 ds with
    | none => none
    | some n =>
      if neg then (if n ≤ 2147483648 then some (-(n : Int)) else none)
      else (if n ≤ 2147483647 then some ((n : Int)) else none)

/-- Entry point of the modelled `i32::from_str` (see `i32_from_str_digits`). -/
def i32_from_str (s : List Char) : Option Int :=
  match s with
  | [] => none
  | c :: cs =>
    if c = '+' then i32_from_str_digits cs false
    else if c = '-' then i32_from_str_digits cs true
    else i32_from_str_digits (c :: cs) false

/-- `parse_num` from `src/parser.rs:208-221`.  `res.len()` in the source is
a byte length, but `res` consists of ASCII digits only, so it equals the
character count used here. -/
def parse_num (s : List Char) (min_digits max_digits : Nat) :
    PResult (Int × List Char) :=
  match take_while s is_digit_char max_digits with
  | (_, none) => .err ParseErr.UnexpectedEndOfInput
  | (res, some rest) =>
    if res.length < min_digits then .err ParseErr.TooFewDigits
    else if max_digits < res.length then .err ParseErr.TooManyDigits
    else
      match i32_from_str res with
      | none => .err ParseErr.IntConversionErr
      | some n => .ok (n, rest)

/-- `parse_decimal` from `src/parser.rs:223-233`.  The source loop
`for _i in 1..z { multiplicand *= 10 }` computes `10 ^ (z - 1)` (also when
`z = 0`, since the empty range leaves `multiplicand = 1 = 10 ^ 0`). -/
def parse_decimal (d : List Char) (min_digits max_digits : Nat) :
    PResult (Int × List Char) :=
  match parse_num d min_digits max_digits with
  | .panicked => .panicked
  | .err e => .err e
  | .ok (val, s) =>
    let z : Nat := 10 - (byteLen d - byteLen s)
    let multiplicand : Int := (10 : Int) ^ (z - 1)
    .ok (val * multiplicand, s)

/-- Fields of `time::Tm` used by `parse_timestamp` (the `time` crate is an
external dependency; only the fields the parser writes are modelled). -/
structure Tm where
  tm_sec : Int
  tm_min : Int
  tm_hour : Int
  tm_mday : Int
  tm_mon : Int
  tm_year : Int
  tm_nsec : Int
  deriving DecidableEq, Repr

/-- `time::empty_tm()`: all fields zero. -/
def empty_tm : Tm :=
  { tm_sec := 0, tm_min := 0, tm_hour := 0, tm_mday := 0, tm_mon := 0
  , tm_year := 0, tm_nsec := 0 }

/-- `time::Timespec`: seconds since the Unix epoch plus nanoseconds. -/
structure Timespec where
  sec : Int
  nsec : Int
  deriving DecidableEq, Repr

/-- Modelled from the external `time` crate (not part of this repository):
days between 1970-01-01 and the civil date `y-m-d`, by the standard civil
calendar algorithm (Hinnant).  Only the nanosecond component of the
resulting `Timespec` is examined by any claim; the second component is
included for completeness of the record. -/
def days_from_civil (y m d : Int) : Int :=
  let y2 := if m ≤ 2 then y - 1 else y
  let era := (if 0 ≤ y2 then y2 else y2 - 399) / 400
  let yoe := y2 - era * 400
  let doy := (153 * (if 2 < m then m - 3 else m + 9) + 2) / 5 + d - 1
  let doe := yoe * 365 + yoe / 4 - yoe / 100 + doy
  era * 146097 + doe - 719468

/-- Modelled from the external `time` crate: the composite
`(tm + Duration::minutes(off)).to_utc().to_timespec()` used at
`src/parser.rs:278-280`.  Adding a minute `Duration` shifts the epoch
seconds by `60 * off` and leaves `tm_nsec` unchanged; `to_utc` on a UTC
`Tm` is the identity; `to_timespec` converts the civil fields to epoch
seconds and copies `tm_nsec`. -/
def tm_to_timespec_after_minutes (tm : Tm) (offset_minutes : Int) : Timespec :=
  { sec := days_from_civil (tm.tm_year + 1900) (tm.tm_mon + 1) tm.tm_mday * 86400
      + tm.tm_hour * 3600 + tm.tm_min * 60 + tm.tm_sec + offset_minutes * 60
  , nsec := tm.tm_nsec }

/-- Drop the first `n` bytes of a string, modelling Rust `&s[n..]` slicing
up to the panic condition: `none` means the index is out of bounds or not
on a character boundary (a Rust panic). -/
def drop_bytes : List Char → Nat → Option (List Char)
  | s, 0 => some s
  | [], _ + 1 => none
  | c :: cs, n + 1 =>
    if charBytes c ≤ n + 1 then drop_bytes cs (n + 1 - charBytes c) else none

/-- Take the first `n` bytes of a string; `none` on a non-boundary cut. -/
def take_bytes : List Char → Nat → Option (List Char)
  | _, 0 => some []
  | [], _ + 1 => none
  | c :: cs, n + 1 =>
    if charBytes c ≤ n + 1 then (take_bytes cs (n + 1 - charBytes c)).map (c :: ·)
    else none

/-- Rust `&s[a..b]`: `none` models the slicing panic (out of range or not
a character boundary). -/
def slice_bytes (s : List Char) (a b : Nat) : Option (List Char) :=
  if a ≤ b ∧ b ≤ byteLen s then (drop_bytes s a).bind fun t => take_bytes t (b - a)
  else none

/-- Rust `&s[a..]`: `none` models the slicing panic. -/
def slice_bytes_from (s : List Char) (a : Nat) : Option (List Char) :=
  if a ≤ byteLen s then drop_bytes s a else none

/-- The UTC-offset arm of `parse_timestamp` (`src/parser.rs:263-276`) after
the sign has been determined: the source slices `&irest[0..2]`,
`&irest[3..5]` and `&irest[5..]` without any length check, so a too-short
(or badly aligned) remainder panics, modelled by `PResult.panicked`. -/
def parse_utc_offset_tail (sign : Int) (irest : List Char) : PResult (Int × List Char) :=
  match slice_bytes irest 0 2 with
  | none => .panicked
  | some hrs2 =>
    match i32_from_str hrs2 with
    | none => .err ParseErr.IntConversionErr
    | some hours =>
      match slice_bytes irest 3 5 with
      | none => .panicked
      | some mins2 =>
        match i32_from_str mins2 with
        | none => .err ParseErr.IntConversionErr
        | some minutes =>
          match slice_bytes_from irest 5 with
          | none => .panicked
          | some rest5 => .ok (minutes * sign + hours * 60 * sign, rest5)

/-- The `let utc_offset_mins = match rest.chars().next() { ... }` block of
`parse_timestamp` (`src/parser.rs:257-277`), hoisted into a named helper:
end of input and `Z` mean offset 0, a sign hands over to the sliced hour
and minute fields, anything else is the invalid-offset error.  Note the
sign convention of the source: `-` maps to `+1`, `+` to `-1` (RFC 3339
offsets are subtracted to reach UTC). -/
def parse_utc_offset (r7 : List Char) : PResult (Int × List Char) :=
  match r7 with
  | [] => .ok ((0 : Int), r7)
  | 'Z' :: rz => .ok ((0 : Int), rz)
  | c :: cr =>
    if c = '-' then parse_utc_offset_tail 1 cr
    else if c = '+' then parse_utc_offset_tail (-1) cr
    else .err ParseErr.InvalidUTCOffset

/-- `parse_timestamp` from `src/parser.rs:235-281`.  A leading `-` is the
null sentinel regardless of what follows. -/
def parse_timestamp (m : List Char) : PResult (Option Timespec × List Char) :=
  match m with
  | '-' :: rest => .ok (none, rest)
  | _ =>
    (parse_num m 4 4).bind fun (year, r1) =>
    (take_char r1 '-').bind fun r1b =>
    (parse_num r1b 2 2).bind fun (month, r2) =>
    (take_char r2 '-').bind fun r2b =>
    (parse_num r2b 2 2).bind fun (mday, r3) =>
    (take_char r3 'T').bind fun r3b =>
    (parse_num r3b 2 2).bind fun (hour, r4) =>
    (take_char r4 ':').bind fun r4b =>
    (parse_num r4b 2 2).bind fun (minute, r5) =>
    (take_char r5 ':').bind fun r5b =>
    (parse_num r5b 2 2).bind fun (second, r6) =>
    (match r6 with
     | '.' :: r6b => parse_decimal r6b 1 6
     | _ => PResult.ok ((0 : Int), r6)).bind fun (nsec, r7) =>
    (parse_utc_offset r7).bind fun (utc_offset_mins, r8) =>
    let tm : Tm :=
      { tm_sec := second, tm_min := minute, tm_hour := hour, tm_mday := mday
      , tm_mon := month - 1, tm_year := year - 1900, tm_nsec := nsec }
    .ok (some (tm_to_timespec_after_minutes tm utc_offset_mins), r8)

/-- Byte-scanning loop of `parse_term` (`src/parser.rs:292-304`).  Every
byte it consumes is printable ASCII (33..126), so the byte index `idx`
advances by 1 per consumed character; a non-ASCII character is stopped at
its first byte, which is `> 126`, exactly as `c.toNat > 126` stops it
here, and the `str::from_utf8` of the consumed prefix cannot fail. -/
def pt_go (min_length max_length : Nat) :
    List Char → Nat → List Char → PResult (Option (List Char) × List Char)
  | [], _, _ => .err ParseErr.UnexpectedEndOfInput
  | c :: cs, idx, acc =>
    if c.toNat < 33 ∨ 126 < c.toNat then
      if idx < min_length then .err ParseErr.TooFewDigits
      else .ok (some acc.reverse, c :: cs)
    else if max_length ≤ idx then .ok (some acc.reverse, c :: cs)
    else pt_go min_length max_length cs (idx + 1) (c :: acc)

/-- `parse_term` from `src/parser.rs:283-306`.  The null sentinel is a
leading `-` whose following byte is absent or is exactly `0x20`. -/
def parse_term (m : List Char) (min_length max_length : Nat) :
    PResult (Option (List Char) × List Char) :=
  match m with
  | '-' :: rest =>
    if rest.isEmpty ∨ rest.head? = some ' ' then .ok (none, rest)
    else pt_go min_length max_length ('-' :: rest) 0 []
  | s => pt_go min_length max_length s 0 []

/-- `ProcId` from `src/message.rs:26-29`. -/
inductive ProcId where
  | PID (p : Int)
  | Name (n : List Char)
  deriving DecidableEq, Repr

/-- The parse result record, from `struct SyslogMessage` (`src/message.rs`,
with the fields exactly as `parse_message_s` fills them in). -/
structure SyslogMessage where
  severity : SyslogSeverity
  facility : SyslogFacility
  version : Int
  timestamp : Option Int
  timestamp_nanos : Option Int
  hostname : Option (List Char)
  appname : Option (List Char)
  procid : Option ProcId
  msgid : Option (List Char)
  sd : SD
  msg : List Char
  deriving DecidableEq, Repr

/-- `parse_message_s` from `src/parser.rs:308-353`, the top-level message
assembler (also the body of the public `parse_message`, which only
converts its argument to `&str` first). -/
def parse_message_s (m : List Char) : PResult SyslogMessage :=
  (take_char m '<').bind fun r0 =>
  (parse_num r0 1 3).bind fun (prival, r1) =>
  (take_char r1 '>').bind fun r2 =>
  (parse_pri_val prival).bind fun sevfac =>
  (parse_num r2 1 2).bind fun (version, r3) =>
  (take_char r3 ' ').bind fun r4 =>
  (parse_timestamp r4).bind fun (event_time, r5) =>
  (take_char r5 ' ').bind fun r6 =>
  (parse_term r6 1 255).bind fun (hostname, r7) =>
  (take_char r7 ' ').bind fun r8 =>
  (parse_term r8 1 48).bind fun (appname, r9) =>
  (take_char r9 ' ').bind fun r10 =>
  (parse_term r10 1 128).bind fun (procid_r, r11) =>
  let procid : Option ProcId :=
    match procid_r with
    | none => none
    | some s =>
      some (match i32_from_str s with
            | some n => ProcId.PID n
            | none => ProcId.Name s)
  (take_char r11 ' ').bind fun r12 =>
  (parse_term r12 1 32).bind fun (msgid, r13) =>
  (take_char r13 ' ').bind fun r14 =>
  (parse_sd r14).bind fun (sd, r15) =>
  let r16 := match maybe_expect_char r15 ' ' with
             | some r => r
             | none => r15
  .ok { severity := sevfac.1, facility := sevfac.2, version := version
      , timestamp := event_time.map Timespec.sec
      , timestamp_nanos := event_time.map Timespec.nsec
      , hostname := hostname, appname := appname, procid := procid
      , msgid := msgid, sd := sd, msg := r16 }

/-! Helper lemmas about the primitives, used by several claim theorems. -/

theorem is_digit_char_iff (c : Char) :
    is_digit_char c = true ↔ 48 ≤ c.toNat ∧ c.toNat ≤ 57 := by
  simp [is_digit_char]

theorem charBytes_of_digit (c : Char) (h : is_digit_char c = true) :
    charBytes c = 1 := by
  rw [is_digit_char_iff] at h
  unfold charBytes
  rw [if_pos]
  omega

theorem digit_ne_of_toNat (c : Char) (d : Char) (h : is_digit_char c = true)
    (hd : d.toNat < 48 ∨ 57 < d.toNat) : c ≠ d := by
  rw [is_digit_char_iff] at h
  intro he
  subst he
  omega

/-- Scanning a run of `f`-satisfying single-byte characters: the scan
stops at the first following character, either because it fails `f` or
because the byte cap is reached exactly there. -/
theorem take_while_go_append (f : Char → Bool) (mx : Nat) :
    ∀ (ds : List Char) (idx : Nat) (acc : List Char) (c : Char) (r : List Char),
      (∀ x ∈ ds, f x = true) → (∀ x ∈ ds, charBytes x = 1) →
      idx + ds.length ≤ mx → (f c = false ∨ idx + ds.length = mx) →
      take_while_go f mx (ds ++ c :: r) idx acc = (acc.reverse ++ ds, some (c :: r)) := by
  intro ds
  induction ds with
  | nil =>
    intro idx acc c r _ _ hle hstop
    rcases hstop with hf | hm
    · simp [take_while_go, hf]
    · simp at hm
      by_cases hf : f c = false
      · simp [take_while_go, hf]
      · simp [take_while_go, hf, hm]
  | cons d ds ih =>
    intro idx acc c r hall hascii hle hstop
    have hfd : f d = true := hall d (by simp)
    have hbd : charBytes d = 1 := hascii d (by simp)
    have hne : idx ≠ mx := by simp at hle; omega
    have step : take_while_go f mx ((d :: ds) ++ c :: r) idx acc
        = take_while_go f mx (ds ++ c :: r) (idx + charBytes d) (d :: acc) := by
      simp [take_while_go, hfd, hne]
    rw [step, hbd]
    have hall2 : ∀ x ∈ ds, f x = true := fun x hx => hall x (by simp [hx])
    have hascii2 : ∀ x ∈ ds, charBytes x = 1 := fun x hx => hascii x (by simp [hx])
    have hle2 : idx + 1 + ds.length ≤ mx := by simp at hle; omega
    have hstop2 : f c = false ∨ idx + 1 + ds.length = mx := by
      rcases hstop with hf | hm
      · exact Or.inl hf
      · right
        simp at hm
        omega
    rw [ih (idx + 1) (d :: acc) c r hall2 hascii2 hle2 hstop2]
    simp

theorem take_while_append (ds : List Char) (c : Char) (r : List Char)
    (f : Char → Bool) (mx : Nat)
    (hall : ∀ x ∈ ds, f x = true) (hascii : ∀ x ∈ ds, charBytes x = 1)
    (hle : ds.length ≤ mx) (hstop : f c = false ∨ ds.length = mx) :
    take_while (ds ++ c :: r) f mx = (ds, some (c :: r)) := by
  have := take_while_go_append f mx ds 0 [] c r hall hascii (by omega)
    (by rcases hstop with h | h; exact Or.inl h; exact Or.inr (by omega))
  simpa [take_while] using this

/-- Decimal value of a digit string (mathematical reading, used to state
what `parse_num` returns). -/
def decimal_value (ds : List Char) : Nat :=
  ds.foldl (fun a c => a * 10 + digit_val c) 0

theorem digits_to_nat_go_eq_foldl :
    ∀ (ds : List Char) (acc : Nat), (∀ x ∈ ds, is_digit_char x = true) →
      digits_to_nat_go acc ds = some (ds.foldl (fun a c => a * 10 + digit_val c) acc) := by
  intro ds
  induction ds with
  | nil => intro acc _; simp [digits_to_nat_go]
  | cons d ds ih =>
    intro acc hall
    have hd : is_digit_char d = true := hall d (by simp)
    simp only [digits_to_nat_go, hd, if_pos]
    rw [ih (acc * 10 + digit_val d) (fun x hx => hall x (by simp [hx]))]
    simp

theorem foldl_digits_lt :
    ∀ (ds : List Char) (acc : Nat), (∀ x ∈ ds, is_digit_char x = true) →
      ds.foldl (fun a c => a * 10 + digit_val c) acc < (acc + 1) * 10 ^ ds.length := by
  intro ds
  induction ds with
  | nil => intro acc _; simp
  | cons d ds ih =>
    intro acc hall
    have hd : is_digit_char d = true := hall d (by simp)
    have hdv : digit_val d ≤ 9 := by
      rw [is_digit_char_iff] at hd
      unfold digit_val
      omega
    have h1 := ih (acc * 10 + digit_val d) (fun x hx => hall x (by simp [hx]))
    have h2 : (acc * 10 + digit_val d + 1) * 10 ^ ds.length ≤ (acc + 1) * 10 ^ (ds.length + 1) := by
      have : acc * 10 + digit_val d + 1 ≤ (acc + 1) * 10 := by omega
      calc (acc * 10 + digit_val d + 1) * 10 ^ ds.length
          ≤ (acc + 1) * 10 * 10 ^ ds.length := Nat.mul_le_mul_right _ this
        _ = (acc + 1) * 10 ^ (ds.length + 1) := by ring
    simp only [List.foldl_cons]
    calc List.foldl (fun a c => a * 10 + digit_val c) (acc * 10 + digit_val d) ds
        < (acc * 10 + digit_val d + 1) * 10 ^ ds.length := h1
      _ ≤ (acc + 1) * 10 ^ (ds.length + 1) := h2
      _ = (acc + 1) * 10 ^ (d :: ds).length := by simp

theorem decimal_value_lt (ds : List Char) (hall : ∀ x ∈ ds, is_digit_char x = true) :
    decimal_value ds < 10 ^ ds.length := by
  have := foldl_digits_lt ds 0 hall
  simpa [decimal_value] using this

theorem i32_from_str_digits_of_digits (ds : List Char)
    (hall : ∀ x ∈ ds, is_digit_char x = true) (hne : ds ≠ [])
    (h9 : ds.length ≤ 9) :
    i32_from_str ds = some ((decimal_value ds : Int)) := by
  have hval : decimal_value ds < 10 ^ 9 := by
    have h1 := decimal_value_lt ds hall
    calc decimal_value ds < 10 ^ ds.length := h1
      _ ≤ 10 ^ 9 := Nat.pow_le_pow_right (by omega) h9
  have hmax : decimal_value ds ≤ 2147483647 := by
    have : (10 : Nat) ^ 9 = 1000000000 := by norm_num
    omega
  cases ds with
  | nil => exact absurd rfl hne
  | cons c cs =>
    have hc : is_digit_char c = true := hall c (by simp)
    have hplus : c ≠ '+' := digit_ne_of_toNat c '+' hc (by left; decide)
    have hminus : c ≠ '-' := digit_ne_of_toNat c '-' hc (by left; decide)
    unfold i32_from_str
    simp only
    rw [if_neg hplus, if_neg hminus]
    unfold i32_from_str_digits
    rw [digits_to_nat_go_eq_foldl (c :: cs) 0 hall]
    simp only [decimal_value, List.foldl_cons, Nat.zero_mul, Nat.zero_add] at hmax ⊢
    simp [hmax]

/-- What `parse_num` does on a digit run followed by anything that stops
the scan (a non-digit, or reaching the cap exactly there). -/
theorem parse_num_spec (ds : List Char) (c : Char) (r : List Char) (mn mx : Nat)
    (hall : ∀ x ∈ ds, is_digit_char x = true) (hne : ds ≠ [])
    (hmn : mn ≤ ds.length) (hmx : ds.length ≤ mx) (h9 : ds.length ≤ 9)
    (hstop : is_digit_char c = false ∨ ds.length = mx) :
    parse_num (ds ++ c :: r) mn mx = .ok ((decimal_value ds : Int), c :: r) := by
  have hascii : ∀ x ∈ ds, charBytes x = 1 := fun x hx => charBytes_of_digit x (hall x hx)
  unfold parse_num
  rw [take_while_append ds c r is_digit_char mx hall hascii hmx hstop]
  simp only
  rw [if_neg (by omega), if_neg (by omega)]
  rw [i32_from_str_digits_of_digits ds hall hne h9]

theorem byteLen_append (a b : List Char) : byteLen (a ++ b) = byteLen a + byteLen b := by
  simp [byteLen]

theorem byteLen_digits (ds : List Char) (hall : ∀ x ∈ ds, is_digit_char x = true) :
    byteLen ds = ds.length := by
  induction ds with
  | nil => simp [byteLen]
  | cons d ds ih =>
    have hd := charBytes_of_digit d (hall d (by simp))
    have := ih (fun x hx => hall x (by simp [hx]))
    simp [byteLen] at this ⊢
    omega

/-- What `parse_decimal` does on a digit run: positional scaling by
`10 ^ (9 - digit count)` of the parsed integer, i.e. normalisation of the
fraction to nanoseconds. -/
theorem parse_decimal_spec (ds : List Char) (c : Char) (r : List Char)
    (hall : ∀ x ∈ ds, is_digit_char x = true) (hne : ds ≠ [])
    (hlen : ds.length ≤ 6)
    (hstop : is_digit_char c = false ∨ ds.length = 6) :
    parse_decimal (ds ++ c :: r) 1 6
      = .ok ((decimal_value ds : Int) * 10 ^ (9 - ds.length), c :: r) := by
  have h1 : 1 ≤ ds.length := by
    cases ds with
    | nil => exact absurd rfl hne
    | cons a as => simp
  unfold parse_decimal
  rw [parse_num_spec ds c r 1 6 hall hne h1 hlen (by omega) hstop]
  simp only
  rw [byteLen_append, byteLen_digits ds hall]
  have hz : 10 - (ds.length + byteLen (c :: r) - byteLen (c :: r)) = 10 - ds.length := by
    omega
  rw [hz]
  have hz2 : 10 - ds.length - 1 = 9 - ds.length := by omega
  rw [hz2]

/-- Byte-scanning a printable token up to a separator byte (below 33 or
above 126): the token is returned whole with the separator unconsumed. -/
theorem pt_go_spec (mn mx : Nat) :
    ∀ (t : List Char) (idx : Nat) (acc : List Char) (c : Char) (r : List Char),
      (∀ x ∈ t, 33 ≤ x.toNat ∧ x.toNat ≤ 126) →
      (c.toNat < 33 ∨ 126 < c.toNat) →
      idx + t.length ≤ mx → mn ≤ idx + t.length →
      pt_go mn mx (t ++ c :: r) idx acc = .ok (some (acc.reverse ++ t), c :: r) := by
  intro t
  induction t with
  | nil =>
    intro idx acc c r _ hc hle hmn
    simp at hmn
    simp [pt_go, hc, Nat.not_lt.mpr hmn]
  | cons x t ih =>
    intro idx acc c r hall hc hle hmn
    have hx := hall x (by simp)
    have hxp : ¬(x.toNat < 33 ∨ 126 < x.toNat) := by omega
    have hcap : ¬(mx ≤ idx) := by simp at hle; omega
    have step : pt_go mn mx ((x :: t) ++ c :: r) idx acc
        = pt_go mn mx (t ++ c :: r) (idx + 1) (x :: acc) := by
      simp [pt_go, hxp, hcap]
    rw [step]
    have := ih (idx + 1) (x :: acc) c r (fun y hy => hall y (by simp [hy])) hc
      (by simp at hle ⊢; omega) (by simp at hmn ⊢; omega)
    rw [this]
    simp

/-- A printable token (of admissible length) followed by a separator
parses to `some` of exactly its text; a token that merely starts with `-`
but continues with printable characters is not treated as the sentinel. -/
theorem parse_term_token (t : List Char) (c : Char) (r : List Char) (mn mx : Nat)
    (hall : ∀ x ∈ t, 33 ≤ x.toNat ∧ x.toNat ≤ 126)
    (hc : c.toNat < 33 ∨ 126 < c.toNat)
    (hne : t ≠ []) (hmx : t.length ≤ mx) (hmn : mn ≤ t.length)
    (hdash : t.head? = some '-' → 2 ≤ t.length) :
    parse_term (t ++ c :: r) mn mx = .ok (some t, c :: r) := by
  have hscan : pt_go mn mx (t ++ c :: r) 0 [] = .ok (some t, c :: r) := by
    have := pt_go_spec mn mx t 0 [] c r hall hc (by omega) (by omega)
    simpa using this
  cases t with
  | nil => exact absurd rfl hne
  | cons x ts =>
    by_cases hx : x = '-'
    · subst hx
      have hts : 1 ≤ ts.length := by
        have := hdash (by simp)
        simp at this
        omega
      cases ts with
      | nil => simp at hts
      | cons y ys =>
        have hy := hall y (by simp)
        have hyne : y ≠ ' ' := by
          intro he
          subst he
          simp at hy
        have hsent : ¬((y :: ys ++ c :: r).isEmpty = true ∨ (y :: ys ++ c :: r).head? = some ' ') := by
          simp [hyne]
        show parse_term ('-' :: (y :: ys ++ c :: r)) mn mx = _
        unfold parse_term
        simp only
        rw [if_neg hsent]
        exact hscan
    · have harm : parse_term (x :: ts ++ c :: r) mn mx = pt_go mn mx (x :: ts ++ c :: r) 0 [] := by
        unfold parse_term
        split
        · rename_i rest0 heq
          exfalso
          have : x = '-' := by
            have := List.head_eq_of_cons_eq heq
            exact this
          exact hx this
        · rfl
      rw [harm]
      exact hscan

/-- Exit equation of the parameter loop: no leading space means the
parameter list is finished. -/
theorem pspg_none (top : List Char) (acc : List (List Char × List Char))
    (h : maybe_expect_char top ' ' = none) :
    parse_sd_params_go acc top = .ok (acc, top) := by
  rw [parse_sd_params_go]
  split
  · rfl
  · rename_i rest2 hme
    rw [h] at hme
    cases hme

/-- Step equation of the parameter loop: one `name="value"` pair is
consumed and appended. -/
theorem pspg_step (top rest2 pn r1 r2 pv r3 : List Char)
    (acc : List (List Char × List Char))
    (h0 : maybe_expect_char top ' ' = some rest2)
    (h1 : parse_sd_id rest2 = .ok (pn, r1))
    (h2 : take_char r1 '=' = .ok r2)
    (h3 : parse_param_value r2 = .ok (pv, r3)) :
    parse_sd_params_go acc top = parse_sd_params_go (acc ++ [(pn, pv)]) r3 := by
  conv_lhs => rw [parse_sd_params_go]
  split
  · rename_i hme
    rw [h0] at hme
    cases hme
  · rename_i rest2x hme
    rw [h0] at hme
    cases hme
    split
    · rename_i hh
      rw [h1] at hh
      cases hh
    · rename_i e hh
      rw [h1] at hh
      cases hh
    · rename_i pnx r1x hh
      rw [h1] at hh
      cases hh
      split
      · rename_i hh2
        rw [h2] at hh2
        cases hh2
      · rename_i e hh2
        rw [h2] at hh2
        cases hh2
      · rename_i r2x hh2
        rw [h2] at hh2
        cases hh2
        split
        · rename_i hh3
          rw [h3] at hh3
          cases hh3
        · rename_i e hh3
          rw [h3] at hh3
          cases hh3
        · rename_i pvx r3x hh3
          rw [h3] at hh3
          cases hh3
          rfl

/-- Step equation of the element loop of `parse_sd`. -/
theorem psg_step (c : Char) (cs : List Char) (sd : SD)
    (sd_id : List Char) (params : SDParams) (rest1 : List Char)
    (h : parse_sde (c :: cs) = .ok ((sd_id, params), rest1)) :
    parse_sd_go sd (c :: cs)
      = (if rest1.head? = some ' '
         then .ok (sd_insert_params sd sd_id params, rest1)
         else parse_sd_go (sd_insert_params sd sd_id params) rest1) := by
  conv_lhs => rw [parse_sd_go]
  split
  · rename_i hh
    rw [h] at hh
    cases hh
  · rename_i e hh
    rw [h] at hh
    cases hh
  · rename_i idx px rx hh
    rw [h] at hh
    cases hh
    rfl

/-- Exit equation of the element loop on empty input. -/
theorem psg_nil (sd : SD) : parse_sd_go sd [] = .ok (sd, []) := by
  rw [parse_sd_go]

/-! Statement-side constructions used by the claim theorems. -/

/-- Decimal rendering (without leading zeros) of a number below 1000;
used to build priority headers. -/
def natDecimal (n : Nat) : List Char :=
  if n < 10 then [Char.ofNat (48 + n)]
  else if n < 100 then [Char.ofNat (48 + n / 10), Char.ofNat (48 + n % 10)]
  else [Char.ofNat (48 + n / 100), Char.ofNat (48 + (n / 10) % 10), Char.ofNat (48 + n % 10)]

/-- The message `<pri>1 - - - - - -`: a priority header followed by the
minimal valid suffix (version 1, every optional field the null sentinel). -/
def mkPriMsg (pri : Nat) : List Char :=
  '<' :: natDecimal pri ++ '>' :: "1 - - - - - -".toList

/-- Facility and severity codes of a parse outcome, `none` on failure. -/
def facSevOf : PResult SyslogMessage → Option (Int × Int)
  | .ok m => some (m.facility.as_int, m.severity.as_int)
  | _ => none

/-- Continuation of `parse_message_s` after the structured-data field, for
a message of the form `<1>1 - - - - - <sd and body>`: all earlier fields
are already the null sentinel and version 1.  Used to state intermediate
evaluation steps of concrete parses. -/
def sd_tail_cont (z : SD × List Char) : PResult SyslogMessage :=
  PResult.ok
    { severity := .SEV_ALERT, facility := .LOG_KERN, version := 1,
      timestamp := none, timestamp_nanos := none, hostname := none,
      appname := none, procid := none, msgid := none, sd := z.1,
      msg := (match maybe_expect_char z.2 ' ' with
              | some r => r
              | none => z.2) }

theorem charBytes_of_printable (c : Char) (h : c.toNat ≤ 126) : charBytes c = 1 := by
  unfold charBytes
  rw [if_pos]
  omega

theorem take_while_go_fst_le (f : Char → Bool) (mx : Nat)
    (hb : ∀ c, f c = true → charBytes c = 1) :
    ∀ (inp : List Char) (idx : Nat) (acc : List Char), idx ≤ mx →
      (take_while_go f mx inp idx acc).1.length ≤ acc.length + (mx - idx) := by
  intro inp
  induction inp with
  | nil => intro idx acc _; simp [take_while_go]
  | cons c cs ih =>
    intro idx acc hle
    by_cases hf : f c = false
    · simp [take_while_go, hf]
    · by_cases hm : idx = mx
      · simp [take_while_go, hf, hm]
      · have hc1 : charBytes c = 1 := hb c (by revert hf; cases f c <;> simp)
        have step : take_while_go f mx (c :: cs) idx acc
            = take_while_go f mx cs (idx + charBytes c) (c :: acc) := by
          simp [take_while_go, hf, hm]
        rw [step, hc1]
        have := ih (idx + 1) (c :: acc) (by omega)
        simp at this ⊢
        omega

/-- `parse_num` cannot return the too-many-digits error: the scan itself is
capped at `max_digits`, so the length test that would produce it never
fires (excess digits are simply left unconsumed). -/
theorem parse_num_ne_too_many (s : List Char) (mn mx : Nat) :
    parse_num s mn mx ≠ .err ParseErr.TooManyDigits := by
  unfold parse_num
  rcases htw : take_while s is_digit_char mx with ⟨res, rest⟩
  cases rest with
  | none => simp
  | some rr =>
    have hlen : res.length ≤ mx := by
      have h1 := take_while_go_fst_le is_digit_char mx
        (fun c hc => charBytes_of_digit c hc) s 0 [] (by omega)
      have h2 : (take_while s is_digit_char mx).1 = res := by rw [htw]
      rw [take_while] at h2
      rw [h2] at h1
      simpa using h1
    simp only
    by_cases h1 : res.length < mn
    · simp [h1]
    · rw [if_neg h1, if_neg (by omega)]
      cases i32_from_str res <;> simp

/-! Claim theorems. -/

set_option maxRecDepth 8192 in
/-- C1: for every facility code f in [0,23] and severity code s in [0,7],
parsing `<` ++ decimal(f*8+s) ++ `>1 - - - - - -` succeeds and the
returned record carries exactly facility f and severity s (the priority
value is decomposed as severity = pri mod 8, facility = pri div 8). -/
theorem c1_pri_roundtrip :
    ∀ f < 24, ∀ s < 8,
      facSevOf (parse_message_s (mkPriMsg (f * 8 + s))) = some ((f : Int), (s : Int)) := by
  decide

/-- Witness for C1 at facility 9 (cron) and severity 6 (info). -/
theorem c1_pri_roundtrip_witness :
    facSevOf (parse_message_s (mkPriMsg (9 * 8 + 6))) = some ((9 : Int), (6 : Int)) :=
  c1_pri_roundtrip 9 (by decide) 6 (by decide)

/-- C4 (code bug): the claim says the parser never panics and always
returns a typed error, but a truncated UTC offset panics: on
`<1>1 2015-01-01T00:00:00+0` the offset code slices `&irest[0..2]` of a
1-byte remainder, an out-of-bounds byte index. -/
theorem c4_truncated_offset_panics :
    parse_message_s ("<1>1 2015-01-01T00:00:00+0".toList) = .panicked := by
  decide

/-- C5 counterexample: `<4096>1 - - - - - -` does fail, but not with the
facility-out-of-range error the claim names: the priority scan stops after
three digits (`409`) and the parse fails expecting `>` at the leftover
`6`. -/
theorem c5_counterexample :
    parse_message_s ("<4096>1 - - - - - -".toList) = .err (ParseErr.ExpectedTokenErr '>')
      ∧ parse_message_s ("<4096>1 - - - - - -".toList) ≠ .err ParseErr.BadFacilityInPri := by
  decide

/-- C5 amended: parsing `<4096>1 - - - - - -` fails with the
expected-token error for `>` (the 1-3 digit priority scan consumes only
`409` and `6` is not `>`); the facility-out-of-range error kind arises for
a priority that fits in three digits but exceeds facility 23, e.g.
`<200>1 - - - - - -` (200 div 8 = 25 > 23). -/
theorem c5_amended :
    parse_message_s ("<4096>1 - - - - - -".toList) = .err (ParseErr.ExpectedTokenErr '>')
      ∧ parse_message_s ("<200>1 - - - - - -".toList) = .err ParseErr.BadFacilityInPri := by
  decide

set_option maxRecDepth 32768 in
/-- C7 counterexample: a decimal numeral longer than `max_digits` does not
produce the too-many-digits error (the scan caps and leaves `4`
unconsumed), and a 256-character hostname does not produce a
length-exceeded error either: the token is truncated at 255 characters and
the parse then fails expecting the separator space. -/
theorem c7_counterexample :
    parse_num ("1234".toList) 1 3 = .ok (123, "4".toList)
      ∧ parse_num ("1234".toList) 1 3 ≠ .err ParseErr.TooManyDigits
      ∧ parse_message_s ("<1>1 - ".toList ++ List.replicate 256 'a' ++ " - - - -".toList)
          = .err (ParseErr.ExpectedTokenErr ' ')
      ∧ parse_message_s ("<1>1 - ".toList ++ List.replicate 256 'a' ++ " - - - -".toList)
          ≠ .err ParseErr.TooManyDigits := by
  refine ⟨by decide, by decide, by decide, by decide⟩

set_option maxRecDepth 32768 in
/-- C7 amended: `parse_num` never returns the too-many-digits error (for
any input and any bounds, because its scan is capped at `max_digits` and
excess digits are left unconsumed); a hostname of exactly 255 printable
characters parses, while one of 256 characters makes the whole parse fail —
but with the expected-token error for the separator space, since the token
scan stops after 255 characters. -/
theorem c7_amended :
    (∀ (s : List Char) (mn mx : Nat), parse_num s mn mx ≠ .err ParseErr.TooManyDigits)
      ∧ parse_message_s ("<1>1 - ".toList ++ List.replicate 255 'a' ++ " - - - -".toList)
          = .ok { severity := .SEV_ALERT, facility := .LOG_KERN, version := 1,
                  timestamp := none, timestamp_nanos := none,
                  hostname := some (List.replicate 255 'a'),
                  appname := none, procid := none, msgid := none, sd := [], msg := [] }
      ∧ parse_message_s ("<1>1 - ".toList ++ List.replicate 256 'a' ++ " - - - -".toList)
          = .err (ParseErr.ExpectedTokenErr ' ') := by
  refine ⟨fun s mn mx => parse_num_ne_too_many s mn mx, by decide, by decide⟩

/-- C10: in the timestamp and structured-data positions a leading `-` is
consumed as the null sentinel regardless of the following character: for
any remainder, `parse_timestamp` and `parse_sd` return the null value with
everything after the `-` unconsumed; concretely, `<1>1 - - - - - -foo`
parses with empty structured data and message body `foo`, and a timestamp
field starting `-5` yields no timestamp with `5` left unconsumed. -/
theorem c10_unconditional_sentinel :
    (∀ rest : List Char, parse_timestamp ('-' :: rest) = .ok (none, rest))
      ∧ (∀ rest : List Char, parse_sd ('-' :: rest) = .ok ([], rest))
      ∧ parse_timestamp ("-5 - - - -".toList) = .ok (none, "5 - - - -".toList)
      ∧ parse_message_s ("<1>1 - - - - - -foo".toList)
          = .ok { severity := .SEV_ALERT, facility := .LOG_KERN, version := 1,
                  timestamp := none, timestamp_nanos := none, hostname := none,
                  appname := none, procid := none, msgid := none, sd := [],
                  msg := "foo".toList } := by
  refine ⟨fun rest => rfl, fun rest => rfl, by decide, by decide⟩

/-- C3 counterexample: the claim says `-` followed by whitespace parses to
the null value, but the code tests specifically for the byte 0x20: a `-`
followed by a tab (whitespace, 0x09) is scanned as a real token and yields
`some "-"`, not the null value. -/
theorem c3_counterexample :
    parse_term ('-' :: Char.ofNat 9 :: []) 1 255 = .ok (some ('-' :: []), Char.ofNat 9 :: [])
      ∧ parse_term ('-' :: Char.ofNat 9 :: []) 1 255 ≠ .ok (none, Char.ofNat 9 :: []) := by
  decide

/-- C3 amended: for the bounded printable-token fields, a field of exactly
`-` followed by a space (0x20, the field separator) or end-of-input parses
to the null value, and a field that starts with `-` but continues with
more printable characters parses to the literal token text, never to the
null value. -/
theorem c3_sentinel_amended :
    (∀ (mn mx : Nat) (rest : List Char), (rest = [] ∨ rest.head? = some ' ') →
        parse_term ('-' :: rest) mn mx = .ok (none, rest))
      ∧ (∀ (mx : Nat) (t2 : List Char) (c : Char) (r : List Char),
          (∀ x ∈ ('-' :: t2), 33 ≤ x.toNat ∧ x.toNat ≤ 126) → t2 ≠ [] →
          ('-' :: t2).length ≤ mx → (c.toNat < 33 ∨ 126 < c.toNat) →
          parse_term (('-' :: t2) ++ c :: r) 1 mx = .ok (some ('-' :: t2), c :: r)) := by
  constructor
  · intro mn mx rest hr
    unfold parse_term
    simp only
    rcases hr with h | h
    · subst h
      simp
    · rw [if_pos (Or.inr h)]
  · intro mx t2 c r hall hne hmx hc
    exact parse_term_token ('-' :: t2) c r 1 mx hall hc (by simp) hmx (by simp)
      (fun _ => by
        have h := List.length_pos.mpr hne
        simp only [List.length_cons]
        omega)

/-- Witness for C3 at the hostname configuration: `- ` parses to the null
value, and `-foo ` parses to the token `-foo`. -/
theorem c3_sentinel_amended_witness :
    parse_term ('-' :: ' ' :: 'x' :: []) 1 255 = .ok (none, ' ' :: 'x' :: [])
      ∧ parse_term ("-foo".toList ++ ' ' :: 'y' :: []) 1 255
          = .ok (some ("-foo".toList), ' ' :: 'y' :: []) := by
  constructor
  · exact c3_sentinel_amended.1 1 255 (' ' :: 'x' :: []) (by decide)
  · exact c3_sentinel_amended.2 255 ('f' :: 'o' :: 'o' :: []) ' ' ('y' :: []) (by decide) (by decide) (by decide) (by decide)

/-- C9 counterexample: the token `+42` does not consist entirely of digits
yet becomes the numeric variant PID 42 (Rust's `i32::from_str` accepts a
sign), and the all-digit token `99999999999` becomes the name variant
(i32 overflow), refuting both directions of the claim. -/
theorem c9_counterexample :
    parse_message_s ("<1>1 - - - +42 - -".toList)
        = .ok { severity := .SEV_ALERT, facility := .LOG_KERN, version := 1,
                timestamp := none, timestamp_nanos := none, hostname := none,
                appname := none, procid := some (ProcId.PID 42), msgid := none,
                sd := [], msg := [] }
      ∧ parse_message_s ("<1>1 - - - 99999999999 - -".toList)
          = .ok { severity := .SEV_ALERT, facility := .LOG_KERN, version := 1,
                  timestamp := none, timestamp_nanos := none, hostname := none,
                  appname := none,
                  procid := some (ProcId.Name ("99999999999".toList)), msgid := none,
                  sd := [], msg := [] } := by
  refine ⟨by decide, by decide⟩

/-- C6: within one structured-data element a repeated parameter name
overwrites the earlier value (last-write-wins): parsing a message whose
structured data is `[id k="a" k="b"]` yields a container holding exactly
one (id,k) pair, whose value is `b`. -/
theorem c6_duplicate_param_last_wins :
    parse_message_s ("<1>1 - - - - - [id k=\"a\" k=\"b\"] m".toList)
      = .ok { severity := .SEV_ALERT, facility := .LOG_KERN, version := 1,
              timestamp := none, timestamp_nanos := none, hostname := none,
              appname := none, procid := none, msgid := none,
              sd := [("id".toList, [("k".toList, "b".toList)])], msg := 'm' :: [] } := by
  have h0a : maybe_expect_char (" k=\"a\" k=\"b\"] m".toList) ' '
      = some ("k=\"a\" k=\"b\"] m".toList) := by decide
  have h1a : parse_sd_id ("k=\"a\" k=\"b\"] m".toList)
      = .ok ("k".toList, "=\"a\" k=\"b\"] m".toList) := by decide
  have h2a : take_char ("=\"a\" k=\"b\"] m".toList) '='
      = .ok ("\"a\" k=\"b\"] m".toList) := by decide
  have h3a : parse_param_value ("\"a\" k=\"b\"] m".toList)
      = .ok ("a".toList, " k=\"b\"] m".toList) := by decide
  have u1 : parse_sd_params_go [] (" k=\"a\" k=\"b\"] m".toList)
      = parse_sd_params_go [("k".toList, "a".toList)] (" k=\"b\"] m".toList) :=
    pspg_step _ _ _ _ _ _ _ [] h0a h1a h2a h3a
  have h0b : maybe_expect_char (" k=\"b\"] m".toList) ' ' = some ("k=\"b\"] m".toList) := by
    decide
  have h1b : parse_sd_id ("k=\"b\"] m".toList) = .ok ("k".toList, "=\"b\"] m".toList) := by
    decide
  have h2b : take_char ("=\"b\"] m".toList) '=' = .ok ("\"b\"] m".toList) := by decide
  have h3b : parse_param_value ("\"b\"] m".toList) = .ok ("b".toList, "] m".toList) := by
    decide
  have u2 : parse_sd_params_go [("k".toList, "a".toList)] (" k=\"b\"] m".toList)
      = parse_sd_params_go [("k".toList, "a".toList), ("k".toList, "b".toList)] ("] m".toList) :=
    pspg_step _ _ _ _ _ _ _ [("k".toList, "a".toList)] h0b h1b h2b h3b
  have u3 : parse_sd_params_go [("k".toList, "a".toList), ("k".toList, "b".toList)] ("] m".toList)
      = .ok ([("k".toList, "a".toList), ("k".toList, "b".toList)], "] m".toList) :=
    pspg_none ("] m".toList) _ (by decide)
  have hp : parse_sd_params_go [] (" k=\"a\" k=\"b\"] m".toList)
      = .ok ([("k".toList, "a".toList), ("k".toList, "b".toList)], "] m".toList) :=
    (u1.trans u2).trans u3
  have e2 : parse_sde ("[id k=\"a\" k=\"b\"] m".toList)
      = (parse_sd_params_go [] (" k=\"a\" k=\"b\"] m".toList)).bind (fun x =>
          (take_char x.2 ']').bind fun r3 => PResult.ok (("id".toList, x.1), r3)) := rfl
  have hsde : parse_sde ("[id k=\"a\" k=\"b\"] m".toList)
      = .ok (("id".toList, [("k".toList, "a".toList), ("k".toList, "b".toList)]),
             " m".toList) := by
    rw [e2, hp]
    rfl
  have t2 : parse_sd_go [] ("[id k=\"a\" k=\"b\"] m".toList)
      = PResult.ok (sd_insert_params [] ("id".toList)
          [("k".toList, "a".toList), ("k".toList, "b".toList)], " m".toList) :=
    psg_step _ _ _ _ _ _ hsde
  have hsd : parse_sd ("[id k=\"a\" k=\"b\"] m".toList)
      = .ok ([("id".toList, [("k".toList, "b".toList)])], " m".toList) := by
    have t1 : parse_sd ("[id k=\"a\" k=\"b\"] m".toList)
        = parse_sd_go [] ("[id k=\"a\" k=\"b\"] m".toList) := rfl
    rw [t1, t2]
    rfl
  have e1 : parse_message_s ("<1>1 - - - - - [id k=\"a\" k=\"b\"] m".toList)
      = (parse_sd ("[id k=\"a\" k=\"b\"] m".toList)).bind sd_tail_cont := rfl
  rw [e1, hsd]
  rfl

/-- C8 counterexample: the structured-data sub-parser accepts an element
whose identifier has 33 characters (the claim says identifiers are capped
at 32): a whole message with the 33-character identifier parses, and the
identifier appears in the returned container. -/
theorem c8_counterexample :
    parse_message_s ("<1>1 - - - - - [".toList ++ List.replicate 33 'a'
        ++ " k=\"v\"] x".toList)
      = .ok { severity := .SEV_ALERT, facility := .LOG_KERN, version := 1,
              timestamp := none, timestamp_nanos := none, hostname := none,
              appname := none, procid := none, msgid := none,
              sd := [(List.replicate 33 'a', [("k".toList, "v".toList)])],
              msg := 'x' :: [] }
      ∧ (List.replicate 33 'a').length = 33 := by
  constructor
  · have h0a : maybe_expect_char (" k=\"v\"] x".toList) ' '
        = some ("k=\"v\"] x".toList) := by decide
    have h1a : parse_sd_id ("k=\"v\"] x".toList)
        = .ok ("k".toList, "=\"v\"] x".toList) := by decide
    have h2a : take_char ("=\"v\"] x".toList) '=' = .ok ("\"v\"] x".toList) := by decide
    have h3a : parse_param_value ("\"v\"] x".toList) = .ok ("v".toList, "] x".toList) := by
      decide
    have u1 : parse_sd_params_go [] (" k=\"v\"] x".toList)
        = parse_sd_params_go [("k".toList, "v".toList)] ("] x".toList) :=
      pspg_step _ _ _ _ _ _ _ [] h0a h1a h2a h3a
    have u2 : parse_sd_params_go [("k".toList, "v".toList)] ("] x".toList)
        = .ok ([("k".toList, "v".toList)], "] x".toList) :=
      pspg_none ("] x".toList) _ (by decide)
    have hp : parse_sd_params_go [] (" k=\"v\"] x".toList)
        = .ok ([("k".toList, "v".toList)], "] x".toList) := u1.trans u2
    have e2 : parse_sde ("[".toList ++ List.replicate 33 'a' ++ " k=\"v\"] x".toList)
        = (parse_sd_params_go [] (" k=\"v\"] x".toList)).bind (fun x =>
            (take_char x.2 ']').bind fun r3 =>
              PResult.ok ((List.replicate 33 'a', x.1), r3)) := rfl
    have hsde : parse_sde ("[".toList ++ List.replicate 33 'a' ++ " k=\"v\"] x".toList)
        = .ok ((List.replicate 33 'a', [("k".toList, "v".toList)]), " x".toList) := by
      rw [e2, hp]
      rfl
    have t2 : parse_sd_go [] ("[".toList ++ List.replicate 33 'a' ++ " k=\"v\"] x".toList)
        = PResult.ok (sd_insert_params [] (List.replicate 33 'a')
            [("k".toList, "v".toList)], " x".toList) :=
      psg_step _ _ _ _ _ _ hsde
    have hsd : parse_sd ("[".toList ++ List.replicate 33 'a' ++ " k=\"v\"] x".toList)
        = .ok ([(List.replicate 33 'a', [("k".toList, "v".toList)])], " x".toList) := by
      have t1 : parse_sd ("[".toList ++ List.replicate 33 'a' ++ " k=\"v\"] x".toList)
          = parse_sd_go [] ("[".toList ++ List.replicate 33 'a' ++ " k=\"v\"] x".toList) := rfl
      rw [t1, t2]
      rfl
    have e1 : parse_message_s ("<1>1 - - - - - [".toList ++ List.replicate 33 'a'
          ++ " k=\"v\"] x".toList)
        = (parse_sd ("[".toList ++ List.replicate 33 'a'
            ++ " k=\"v\"] x".toList)).bind sd_tail_cont := rfl
    rw [e1, hsd]
    rfl
  · simp

/-- C8 amended: the identifier scan of a structured-data element is capped
at 128 characters, not 32: an element whose printable-ASCII identifier is
longer than 128 characters is never accepted (the scan stops after 128 and
the element then fails expecting `]`), while identifiers up to 128
characters are accepted. -/
theorem c8_amended :
    (∀ (ids r : List Char),
        (∀ x ∈ ids, (33 ≤ x.toNat ∧ x.toNat ≤ 126) ∧ x ≠ '=' ∧ x ≠ ']') →
        128 < ids.length →
        parse_sde ('[' :: (ids ++ r)) = .err (ParseErr.ExpectedTokenErr ']'))
      ∧ (∀ r : List Char,
          parse_sde ('[' :: (List.replicate 128 'a' ++ ']' :: r))
            = .ok ((List.replicate 128 'a', []), r)) := by
  constructor
  · intro ids r hall hlen
    have hsplit := List.take_append_drop 128 ids
    rcases hdrop : ids.drop 128 with _ | ⟨c, rest⟩
    · exfalso
      have hld := List.length_drop 128 ids
      rw [hdrop] at hld
      simp at hld
      omega
    · have hcm : c ∈ ids := by
        have h1 : c ∈ ids.drop 128 := by rw [hdrop]; simp
        exact List.drop_subset 128 ids h1
      obtain ⟨⟨hc33, hc126⟩, hceq, hcbr⟩ := hall c hcm
      have hcsp : c ≠ ' ' := fun he => by subst he; exact absurd hc33 (by decide)
      have htake_all : ∀ x ∈ ids.take 128, sd_id_char x = true := by
        intro x hx
        obtain ⟨⟨h33, h126⟩, heq2, hbr⟩ := hall x (List.take_subset _ _ hx)
        have hsp : x ≠ ' ' := fun he => by subst he; exact absurd h33 (by decide)
        simp [sd_id_char, hsp, heq2, hbr]
      have htake_ascii : ∀ x ∈ ids.take 128, charBytes x = 1 := by
        intro x hx
        obtain ⟨⟨h33, h126⟩, hu1, hu2⟩ := hall x (List.take_subset _ _ hx)
        exact charBytes_of_printable x h126
      have htlen : (ids.take 128).length = 128 := by
        rw [List.length_take]
        omega
      have harr : ids ++ r = ids.take 128 ++ (c :: (rest ++ r)) := by
        conv_lhs => rw [← hsplit]
        rw [hdrop]
        simp
      have hsdid : parse_sd_id (ids ++ r) = .ok (ids.take 128, c :: (rest ++ r)) := by
        unfold parse_sd_id
        rw [harr, take_while_append (ids.take 128) c (rest ++ r) sd_id_char 128
              htake_all htake_ascii (by omega) (Or.inr htlen)]
      have hpar : parse_sd_params (c :: (rest ++ r)) = .ok ([], c :: (rest ++ r)) := by
        unfold parse_sd_params
        exact pspg_none _ _ (by simp [maybe_expect_char, hcsp])
      have hrb : take_char (c :: (rest ++ r)) ']' = .err (ParseErr.ExpectedTokenErr ']') := by
        simp [take_char, hcbr]
      unfold parse_sde
      rw [show take_char ('[' :: (ids ++ r)) '[' = .ok (ids ++ r) from by simp [take_char]]
      simp only [PResult.bind]
      rw [hsdid]
      simp only [PResult.bind]
      rw [hpar]
      simp only [PResult.bind]
      rw [hrb]
  · intro r
    have hall : ∀ x ∈ List.replicate 128 'a', sd_id_char x = true := by
      intro x hx
      have hx2 : x = 'a' := List.eq_of_mem_replicate hx
      subst hx2
      decide
    have hascii : ∀ x ∈ List.replicate 128 'a', charBytes x = 1 := by
      intro x hx
      have hx2 : x = 'a' := List.eq_of_mem_replicate hx
      subst hx2
      decide
    have hsdid : parse_sd_id (List.replicate 128 'a' ++ ']' :: r)
        = .ok (List.replicate 128 'a', ']' :: r) := by
      unfold parse_sd_id
      rw [take_while_append (List.replicate 128 'a') ']' r sd_id_char 128 hall hascii
            (by simp) (Or.inr (by simp))]
    have hpar : parse_sd_params (']' :: r) = .ok ([], ']' :: r) := by
      unfold parse_sd_params
      exact pspg_none _ _ (by simp [maybe_expect_char])
    unfold parse_sde
    rw [show take_char ('[' :: (List.replicate 128 'a' ++ ']' :: r)) '['
          = .ok (List.replicate 128 'a' ++ ']' :: r) from by simp [take_char]]
    simp only [PResult.bind]
    rw [hsdid]
    simp only [PResult.bind]
    rw [hpar]
    simp only [PResult.bind]
    rw [show take_char (']' :: r) ']' = .ok r from by simp [take_char]]

set_option maxRecDepth 32768 in
/-- Witness for C8: a 129-character identifier is rejected at `]`, a
128-character one is accepted. -/
theorem c8_amended_witness :
    parse_sde ('[' :: (List.replicate 129 'a' ++ "]".toList))
        = .err (ParseErr.ExpectedTokenErr ']')
      ∧ parse_sde ('[' :: (List.replicate 128 'a' ++ ']' :: 'x' :: []))
        = .ok ((List.replicate 128 'a', []), 'x' :: []) := by
  constructor
  · exact c8_amended.1 (List.replicate 129 'a') ("]".toList) (by decide) (by decide)
  · exact c8_amended.2 ('x' :: [])

/-- Continuation of `parse_message_s` after the process-id field, for a
message of the form `<1>1 - - - <procid> - -`: the earlier fields are the
null sentinel and version 1, and msgid / structured data are still to be
parsed. -/
def procid_tail_cont (x : Option (List Char) × List Char) : PResult SyslogMessage :=
  (take_char x.2 ' ').bind fun r12 =>
  (parse_term r12 1 32).bind fun y =>
  (take_char y.2 ' ').bind fun r14 =>
  (parse_sd r14).bind fun z =>
  PResult.ok
    { severity := .SEV_ALERT, facility := .LOG_KERN, version := 1,
      timestamp := none, timestamp_nanos := none, hostname := none,
      appname := none,
      procid := (match x.1 with
                 | none => none
                 | some s => some (match i32_from_str s with
                                   | some n => ProcId.PID n
                                   | none => ProcId.Name s)),
      msgid := y.1, sd := z.1,
      msg := (match maybe_expect_char z.2 ' ' with
              | some r => r
              | none => z.2) }

/-- C9 amended: a non-sentinel process-id token becomes the numeric PID
variant exactly when Rust's `i32::from_str` accepts it — an optional `+`
or `-` sign followed by digits whose value fits in a signed 32-bit integer
(leading zeros allowed) — and anything else, including all-digit tokens
that overflow i32, becomes the opaque name variant. -/
theorem c9_amended (t : List Char)
    (hall : ∀ x ∈ t, 33 ≤ x.toNat ∧ x.toNat ≤ 126)
    (hlen : t.length ≤ 128) (hne : t ≠ [])
    (hdash : t.head? = some '-' → 2 ≤ t.length) :
    parse_message_s ("<1>1 - - - ".toList ++ t ++ " - -".toList)
      = .ok { severity := .SEV_ALERT, facility := .LOG_KERN, version := 1,
              timestamp := none, timestamp_nanos := none, hostname := none,
              appname := none,
              procid := some (match i32_from_str t with
                              | some n => ProcId.PID n
                              | none => ProcId.Name t),
              msgid := none, sd := [], msg := [] } := by
  have hmn : 1 ≤ t.length := by
    have := List.length_pos.mpr hne
    omega
  have hpt : parse_term (t ++ ' ' :: ('-' :: ' ' :: '-' :: [])) 1 128
      = .ok (some t, ' ' :: ('-' :: ' ' :: '-' :: [])) :=
    parse_term_token t ' ' ('-' :: ' ' :: '-' :: []) 1 128 hall (by decide) hne hlen hmn hdash
  have e1 : parse_message_s ("<1>1 - - - ".toList ++ t ++ " - -".toList)
      = (parse_term (t ++ ' ' :: ('-' :: ' ' :: '-' :: [])) 1 128).bind procid_tail_cont := rfl
  rw [e1, hpt]
  rfl

/-- Witness for C9 at the token `007`: leading zeros still parse as the
numeric PID 7. -/
theorem c9_amended_witness :
    parse_message_s ("<1>1 - - - 007 - -".toList)
      = .ok { severity := .SEV_ALERT, facility := .LOG_KERN, version := 1,
              timestamp := none, timestamp_nanos := none, hostname := none,
              appname := none, procid := some (ProcId.PID 7), msgid := none,
              sd := [], msg := [] } := by
  have h := c9_amended ("007".toList) (by decide) (by decide) (by decide) (by decide)
  exact h.trans (by decide)

theorem take_char_cons_self (c : Char) (xs : List Char) : take_char (c :: xs) c = .ok xs := by
  simp [take_char]

/-- Any RFC 5424 date-time whose fractional part has more than 6 digits is
rejected: the fraction scan stops after 6 digits, and the 7th digit then
fails the UTC-offset dispatch (it is none of end-of-input, `Z`, `-`, `+`). -/
theorem parse_timestamp_overlong_fraction
    (y4 mo2 d2 hr2 mi2 s2 frac tail : List Char)
    (hy : ∀ x ∈ y4, is_digit_char x = true) (hylen : y4.length = 4)
    (hmo : ∀ x ∈ mo2, is_digit_char x = true) (hmolen : mo2.length = 2)
    (hd : ∀ x ∈ d2, is_digit_char x = true) (hdlen : d2.length = 2)
    (hh : ∀ x ∈ hr2, is_digit_char x = true) (hhlen : hr2.length = 2)
    (hmi : ∀ x ∈ mi2, is_digit_char x = true) (hmilen : mi2.length = 2)
    (hs : ∀ x ∈ s2, is_digit_char x = true) (hslen : s2.length = 2)
    (hf : ∀ x ∈ frac, is_digit_char x = true) (hflen : 7 ≤ frac.length) :
    parse_timestamp (y4 ++ '-' :: (mo2 ++ '-' :: (d2 ++ 'T' :: (hr2 ++ ':' ::
        (mi2 ++ ':' :: (s2 ++ '.' :: (frac ++ tail)))))))
      = .err ParseErr.InvalidUTCOffset := by
  cases y4 with
  | nil => simp at hylen
  | cons a y4t =>
    have ha : is_digit_char a = true := hy a (by simp)
    have hane : a ≠ '-' := digit_ne_of_toNat a '-' ha (by left; decide)
    unfold parse_timestamp
    split
    · rename_i rest heq
      exfalso
      simp only [List.cons_append] at heq
      exact hane (List.cons.injEq .. ▸ heq).1
    · rw [parse_num_spec (a :: y4t) '-'
            (mo2 ++ '-' :: (d2 ++ 'T' :: (hr2 ++ ':' :: (mi2 ++ ':' ::
              (s2 ++ '.' :: (frac ++ tail)))))) 4 4
            hy (by simp) (by omega) (by omega) (by omega) (Or.inr hylen)]
      simp only [PResult.bind]
      rw [take_char_cons_self]
      simp only [PResult.bind]
      rw [parse_num_spec mo2 '-'
            (d2 ++ 'T' :: (hr2 ++ ':' :: (mi2 ++ ':' :: (s2 ++ '.' :: (frac ++ tail))))) 2 2
            hmo (by intro h; rw [h] at hmolen; simp at hmolen)
            (by omega) (by omega) (by omega) (Or.inr hmolen)]
      simp only [PResult.bind]
      rw [take_char_cons_self]
      simp only [PResult.bind]
      rw [parse_num_spec d2 'T'
            (hr2 ++ ':' :: (mi2 ++ ':' :: (s2 ++ '.' :: (frac ++ tail)))) 2 2
            hd (by intro h; rw [h] at hdlen; simp at hdlen)
            (by omega) (by omega) (by omega) (Or.inr hdlen)]
      simp only [PResult.bind]
      rw [take_char_cons_self]
      simp only [PResult.bind]
      rw [parse_num_spec hr2 ':'
            (mi2 ++ ':' :: (s2 ++ '.' :: (frac ++ tail))) 2 2
            hh (by intro h; rw [h] at hhlen; simp at hhlen)
            (by omega) (by omega) (by omega) (Or.inr hhlen)]
      simp only [PResult.bind]
      rw [take_char_cons_self]
      simp only [PResult.bind]
      rw [parse_num_spec mi2 ':'
            (s2 ++ '.' :: (frac ++ tail)) 2 2
            hmi (by intro h; rw [h] at hmilen; simp at hmilen)
            (by omega) (by omega) (by omega) (Or.inr hmilen)]
      simp only [PResult.bind]
      rw [take_char_cons_self]
      simp only [PResult.bind]
      rw [parse_num_spec s2 '.'
            (frac ++ tail) 2 2
            hs (by intro h; rw [h] at hslen; simp at hslen)
            (by omega) (by omega) (by omega) (Or.inr hslen)]
      simp only [PResult.bind]
      rcases hdrop : frac.drop 6 with _ | ⟨f6, fr⟩
      · exfalso
        have hld := List.length_drop 6 frac
        rw [hdrop] at hld
        simp at hld
        omega
      · have hf6 : is_digit_char f6 = true := by
          refine hf f6 (List.drop_subset 6 frac ?_)
          rw [hdrop]
          simp
        have hfr : frac ++ tail = frac.take 6 ++ (f6 :: (fr ++ tail)) := by
          conv_lhs => rw [← List.take_append_drop 6 frac]
          rw [hdrop]
          simp
        have htk : ∀ x ∈ frac.take 6, is_digit_char x = true :=
          fun x hx => hf x (List.take_subset _ _ hx)
        have htklen : (frac.take 6).length = 6 := by
          rw [List.length_take]
          omega
        rw [hfr, parse_decimal_spec (frac.take 6) f6 (fr ++ tail) htk
              (by intro h; rw [h] at htklen; simp at htklen)
              (by omega) (Or.inr htklen)]
        simp only [PResult.bind]
        have hoff : parse_utc_offset (f6 :: (fr ++ tail)) = .err ParseErr.InvalidUTCOffset := by
          unfold parse_utc_offset
          split
          · rename_i heq
            simp at heq
          · rename_i rz heq
            exfalso
            injection heq with h1 h2
            exact digit_ne_of_toNat f6 'Z' hf6 (by right; decide) h1
          · rename_i c cr heq
            injection heq with h1 h2
            subst h1
            rw [if_neg (digit_ne_of_toNat f6 '-' hf6 (by left; decide)),
                if_neg (digit_ne_of_toNat f6 '+' hf6 (by left; decide))]
        rw [hoff]

/-- Any RFC 5424 date-time with a fractional part of d digits (1 ≤ d ≤ 6)
and a `Z` offset parses, and its sub-second field is the fraction value
scaled positionally to nanoseconds: `10^(9-d)` times the parsed integer. -/
theorem parse_timestamp_fraction_nanos
    (y4 mo2 d2 hr2 mi2 s2 frac rest : List Char)
    (hy : ∀ x ∈ y4, is_digit_char x = true) (hylen : y4.length = 4)
    (hmo : ∀ x ∈ mo2, is_digit_char x = true) (hmolen : mo2.length = 2)
    (hd : ∀ x ∈ d2, is_digit_char x = true) (hdlen : d2.length = 2)
    (hh : ∀ x ∈ hr2, is_digit_char x = true) (hhlen : hr2.length = 2)
    (hmi : ∀ x ∈ mi2, is_digit_char x = true) (hmilen : mi2.length = 2)
    (hs : ∀ x ∈ s2, is_digit_char x = true) (hslen : s2.length = 2)
    (hf : ∀ x ∈ frac, is_digit_char x = true) (hfne : frac ≠ [])
    (hflen : frac.length ≤ 6) :
    ∃ ts : Timespec,
      parse_timestamp (y4 ++ '-' :: (mo2 ++ '-' :: (d2 ++ 'T' :: (hr2 ++ ':' ::
          (mi2 ++ ':' :: (s2 ++ '.' :: (frac ++ 'Z' :: rest)))))))
        = .ok (some ts, rest)
      ∧ ts.nsec = (decimal_value frac : Int) * 10 ^ (9 - frac.length) := by
  have heq : parse_timestamp (y4 ++ '-' :: (mo2 ++ '-' :: (d2 ++ 'T' :: (hr2 ++ ':' ::
        (mi2 ++ ':' :: (s2 ++ '.' :: (frac ++ 'Z' :: rest)))))))
      = .ok (some (tm_to_timespec_after_minutes
          ⟨(decimal_value s2 : Int), (decimal_value mi2 : Int), (decimal_value hr2 : Int),
           (decimal_value d2 : Int), (decimal_value mo2 : Int) - 1,
           (decimal_value y4 : Int) - 1900,
           (decimal_value frac : Int) * 10 ^ (9 - frac.length)⟩ 0), rest) := by
    cases y4 with
    | nil => simp at hylen
    | cons a y4t =>
      have ha : is_digit_char a = true := hy a (by simp)
      have hane : a ≠ '-' := digit_ne_of_toNat a '-' ha (by left; decide)
      unfold parse_timestamp
      split
      · rename_i rest0 heq0
        exfalso
        simp only [List.cons_append] at heq0
        exact hane (List.cons.injEq .. ▸ heq0).1
      · rw [parse_num_spec (a :: y4t) '-'
              (mo2 ++ '-' :: (d2 ++ 'T' :: (hr2 ++ ':' :: (mi2 ++ ':' ::
                (s2 ++ '.' :: (frac ++ 'Z' :: rest)))))) 4 4
              hy (by simp) (by omega) (by omega) (by omega) (Or.inr hylen)]
        simp only [PResult.bind]
        rw [take_char_cons_self]
        simp only [PResult.bind]
        rw [parse_num_spec mo2 '-'
              (d2 ++ 'T' :: (hr2 ++ ':' :: (mi2 ++ ':' :: (s2 ++ '.' ::
                (frac ++ 'Z' :: rest))))) 2 2
              hmo (by intro h; rw [h] at hmolen; simp at hmolen)
              (by omega) (by omega) (by omega) (Or.inr hmolen)]
        simp only [PResult.bind]
        rw [take_char_cons_self]
        simp only [PResult.bind]
        rw [parse_num_spec d2 'T'
              (hr2 ++ ':' :: (mi2 ++ ':' :: (s2 ++ '.' :: (frac ++ 'Z' :: rest)))) 2 2
              hd (by intro h; rw [h] at hdlen; simp at hdlen)
              (by omega) (by omega) (by omega) (Or.inr hdlen)]
        simp only [PResult.bind]
        rw [take_char_cons_self]
        simp only [PResult.bind]
        rw [parse_num_spec hr2 ':'
              (mi2 ++ ':' :: (s2 ++ '.' :: (frac ++ 'Z' :: rest))) 2 2
              hh (by intro h; rw [h] at hhlen; simp at hhlen)
              (by omega) (by omega) (by omega) (Or.inr hhlen)]
        simp only [PResult.bind]
        rw [take_char_cons_self]
        simp only [PResult.bind]
        rw [parse_num_spec mi2 ':'
              (s2 ++ '.' :: (frac ++ 'Z' :: rest)) 2 2
              hmi (by intro h; rw [h] at hmilen; simp at hmilen)
              (by omega) (by omega) (by omega) (Or.inr hmilen)]
        simp only [PResult.bind]
        rw [take_char_cons_self]
        simp only [PResult.bind]
        rw [parse_num_spec s2 '.'
              (frac ++ 'Z' :: rest) 2 2
              hs (by intro h; rw [h] at hslen; simp at hslen)
              (by omega) (by omega) (by omega) (Or.inr hslen)]
        simp only [PResult.bind]
        rw [parse_decimal_spec frac 'Z' rest hf hfne hflen (Or.inl (by decide))]
        simp only [PResult.bind]
        rw [show parse_utc_offset ('Z' :: rest) = .ok ((0 : Int), rest) from rfl]
  exact ⟨_, heq, rfl⟩

/-- C2: the fractional-second part is interpreted positionally — a
fraction of d digits (1 ≤ d ≤ 6) scales the parsed integer by
`10^(9-d)` nanoseconds (so `.52` yields `timestamp_nanos = 520000000`,
not 52, both at the fraction sub-parser and through the whole timestamp
sub-parser) — and a timestamp with more than 6 fractional digits makes
the whole parse fail (never a silent truncation). -/
theorem c2_fraction_scaling :
    (∀ (ds : List Char) (c : Char) (r : List Char),
        (∀ x ∈ ds, is_digit_char x = true) → ds ≠ [] → ds.length ≤ 6 →
        is_digit_char c = false →
        parse_decimal (ds ++ c :: r) 1 6
          = .ok ((decimal_value ds : Int) * 10 ^ (9 - ds.length), c :: r))
      ∧ parse_message_s ("<1>1 1985-04-12T23:20:50.52Z host - - - -".toList)
          = .ok { severity := .SEV_ALERT, facility := .LOG_KERN, version := 1,
                  timestamp := some 482196050, timestamp_nanos := some 520000000,
                  hostname := some ("host".toList), appname := none, procid := none,
                  msgid := none, sd := [], msg := [] }
      ∧ (∀ (y4 mo2 d2 hr2 mi2 s2 frac tail : List Char),
          (∀ x ∈ y4, is_digit_char x = true) → y4.length = 4 →
          (∀ x ∈ mo2, is_digit_char x = true) → mo2.length = 2 →
          (∀ x ∈ d2, is_digit_char x = true) → d2.length = 2 →
          (∀ x ∈ hr2, is_digit_char x = true) → hr2.length = 2 →
          (∀ x ∈ mi2, is_digit_char x = true) → mi2.length = 2 →
          (∀ x ∈ s2, is_digit_char x = true) → s2.length = 2 →
          (∀ x ∈ frac, is_digit_char x = true) → 7 ≤ frac.length →
          parse_timestamp (y4 ++ '-' :: (mo2 ++ '-' :: (d2 ++ 'T' :: (hr2 ++ ':' ::
              (mi2 ++ ':' :: (s2 ++ '.' :: (frac ++ tail)))))))
            = .err ParseErr.InvalidUTCOffset)
      ∧ (∀ (y4 mo2 d2 hr2 mi2 s2 frac rest : List Char),
          (∀ x ∈ y4, is_digit_char x = true) → y4.length = 4 →
          (∀ x ∈ mo2, is_digit_char x = true) → mo2.length = 2 →
          (∀ x ∈ d2, is_digit_char x = true) → d2.length = 2 →
          (∀ x ∈ hr2, is_digit_char x = true) → hr2.length = 2 →
          (∀ x ∈ mi2, is_digit_char x = true) → mi2.length = 2 →
          (∀ x ∈ s2, is_digit_char x = true) → s2.length = 2 →
          (∀ x ∈ frac, is_digit_char x = true) → frac ≠ [] → frac.length ≤ 6 →
          ∃ ts : Timespec,
            parse_timestamp (y4 ++ '-' :: (mo2 ++ '-' :: (d2 ++ 'T' :: (hr2 ++ ':' ::
                (mi2 ++ ':' :: (s2 ++ '.' :: (frac ++ 'Z' :: rest)))))))
              = .ok (some ts, rest)
            ∧ ts.nsec = (decimal_value frac : Int) * 10 ^ (9 - frac.length)) := by
  refine ⟨fun ds c r h1 h2 h3 h4 => parse_decimal_spec ds c r h1 h2 h3 (Or.inl h4),
          by decide,
          parse_timestamp_overlong_fraction,
          parse_timestamp_fraction_nanos⟩

/-- Witness for C2: the fraction `52` scales to 520000000 nanoseconds, and
the RFC's overlong example `2003-08-24T05:14:15.000000003+07:00` is a
parse error. -/
theorem c2_fraction_scaling_witness :
    parse_decimal ("52Z".toList) 1 6 = .ok (520000000, 'Z' :: [])
      ∧ parse_timestamp ("2003-08-24T05:14:15.000000003+07:00".toList)
          = .err ParseErr.InvalidUTCOffset := by
  constructor
  · have h := c2_fraction_scaling.1 ('5' :: '2' :: []) 'Z' [] (by decide) (by decide)
      (by decide) (by decide)
    exact h.trans (by decide)
  · exact c2_fraction_scaling.2.2.1 ("2003".toList) ("08".toList) ("24".toList)
      ("05".toList) ("14".toList) ("15".toList) ("000000003".toList) ("+07:00".toList)
      (by decide) (by decide) (by decide) (by decide) (by decide) (by decide)
      (by decide) (by decide) (by decide) (by decide) (by decide) (by decide)
      (by decide) (by decide)

end Syslog
